import Mathlib

set_option maxHeartbeats 1000000

/-!
Shallow embedding of the recommendation extraction & ranking pipeline of the
`pimp-my-site` repository (Supabase edge functions `analyze` and `scan`,
plus two unnamed variant handlers), together with theorems settling the
frozen claims about it.

Conventions used throughout:
* JavaScript strings are modelled as Lean `String` / `List Char`.
* `JSON.parse` is modelled by the executable parser `jsonParse` below,
  which implements the JSON grammar (objects, arrays, strings with escapes,
  numbers with fraction/exponent, `true`/`false`/`null`, strict whitespace).
  Numbers are kept exact in `ℚ` instead of IEEE doubles; every numeric
  literal appearing in the claims (`0`, `1`, `7`, the score weights) is
  exactly representable in both systems, and the order of any two distinct
  score values coincides with the IEEE order, so this does not change any
  claim under scrutiny.
* Fallible JavaScript code (`throw` / `try { } catch { }`) is modelled with
  `Option` / `Except`.
* Database tables are modelled as in-memory lists of row structures; a
  PostgREST filtered `PATCH` is a `List.map` that rewrites every matching
  row, mirroring `eq.` filters.
-/

namespace PimpMySite

/-- Left brace character, written via its code point to keep brace
characters out of string/char literals. -/
def lbrace : Char := Char.ofNat 123

/-- Right brace character. -/
def rbrace : Char := Char.ofNat 125

/-- JSON values as produced by `JSON.parse`. Object members are kept in
insertion order; duplicate keys are kept in the list and field lookup takes
the last occurrence, as JavaScript object construction does. -/
inductive Json where
  | null
  | bool (b : Bool)
  | num (q : ℚ)
  | str (s : String)
  | arr (elems : List Json)
  | obj (members : List (String × Json))
deriving Repr


/-- Whitespace accepted by the JSON grammar (`JSON.parse`): space, tab,
line feed, carriage return. -/
def isJsonWs (c : Char) : Bool :=
  c = ' ' || c = '\t' || c = '\n' || c = '\r'

/-- Drops leading JSON whitespace. -/
def dropJsonWs : List Char → List Char
  | [] => []
  | c :: cs => if isJsonWs c then dropJsonWs cs else c :: cs

/-- Value of a hexadecimal digit. -/
def hexVal? (c : Char) : Option Nat :=
  if '0' ≤ c ∧ c ≤ '9' then some (c.toNat - '0'.toNat)
  else if 'a' ≤ c ∧ c ≤ 'f' then some (c.toNat - 'a'.toNat + 10)
  else if 'A' ≤ c ∧ c ≤ 'F' then some (c.toNat - 'A'.toNat + 10)
  else none

/-- Single-character JSON string escapes (everything except `\uXXXX`). -/
def escChar? (e : Char) : Option Char :=
  if e = '"' then some '"'
  else if e = '\\' then some '\\'
  else if e = '/' then some '/'
  else if e = 'b' then some (Char.ofNat 8)
  else if e = 'f' then some (Char.ofNat 12)
  else if e = 'n' then some '\n'
  else if e = 'r' then some '\r'
  else if e = 't' then some '\t'
  else none

/-- Parses the body of a JSON string literal (the opening quote already
consumed), returning the decoded characters and the remaining input.
Control characters below 0x20 are rejected, as in the JSON grammar.
A `\uXXXX` escape in the surrogate range, which JavaScript would keep as a
lone UTF-16 surrogate, is mapped by `Char.ofNat` to the null character;
no claim depends on surrogate handling. -/
def parseStringBody : List Char → Option (List Char × List Char)
  | [] => none
  | '"' :: rest => some ([], rest)
  | '\\' :: 'u' :: h1 :: h2 :: h3 :: h4 :: rest =>
    match hexVal? h1, hexVal? h2, hexVal? h3, hexVal? h4 with
    | some a, some b, some c, some d =>
      (parseStringBody rest).map
        (fun p => (Char.ofNat (((a * 16 + b) * 16 + c) * 16 + d) :: p.1, p.2))
    | _, _, _, _ => none
  | '\\' :: e :: rest =>
    match escChar? e with
    | some ch => (parseStringBody rest).map (fun p => (ch :: p.1, p.2))
    | none => none
  | c :: rest =>
    if c.toNat < 32 then none
    else (parseStringBody rest).map (fun p => (c :: p.1, p.2))

/-- Value of a decimal digit. -/
def digitVal? (c : Char) : Option Nat :=
  if '0' ≤ c ∧ c ≤ '9' then some (c.toNat - '0'.toNat) else none

/-- Takes the longest prefix of decimal digits. -/
def takeDigits : List Char → (List Nat × List Char)
  | [] => ([], [])
  | c :: rest =>
    match digitVal? c with
    | some d => let p := takeDigits rest; (d :: p.1, p.2)
    | none => ([], c :: rest)

/-- Natural number denoted by a digit list. -/
def natOfDigits (ds : List Nat) : Nat := ds.foldl (fun a d => a * 10 + d) 0

/-- Parses the optional fraction part `.digits` of a JSON number; returns
the fraction digits (empty when absent). -/
def parseFrac : List Char → Option (List Nat × List Char)
  | '.' :: rest =>
    let p := takeDigits rest
    if p.1.isEmpty then none else some (p.1, p.2)
  | cs => some ([], cs)

/-- Parses the optional exponent part `e|E [+|-] digits` of a JSON number;
returns the signed exponent (0 when absent). -/
def parseExp : List Char → Option (Int × List Char)
  | [] => some (0, [])
  | c :: rest =>
    if c = 'e' ∨ c = 'E' then
      let sp : Int × List Char :=
        match rest with
        | '+' :: r => (1, r)
        | '-' :: r => (-1, r)
        | r => (1, r)
      let p := takeDigits sp.2
      if p.1.isEmpty then none else some (sp.1 * (natOfDigits p.1 : Int), p.2)
    else some (0, c :: rest)

/-- Parses an unsigned JSON number starting at the first digit (grammar:
`0 | [1-9][0-9]*`, then optional fraction and exponent). A leading zero
followed by more digits stops after the zero, leaving the extra digits in
the remainder, which makes the surrounding parse fail exactly as
`JSON.parse("01")` does. -/
def parseNumberAbs (cs : List Char) : Option (ℚ × List Char) :=
  match cs with
  | [] => none
  | c :: rest =>
    match digitVal? c with
    | none => none
    | some d0 =>
      let ip : List Nat × List Char :=
        if d0 = 0 then ([0], rest)
        else (let p := takeDigits rest; (d0 :: p.1, p.2))
      match parseFrac ip.2 with
      | none => none
      | some (fds, afterFrac) =>
        match parseExp afterFrac with
        | none => none
        | some (ex, rest') =>
          let scaled : Nat := natOfDigits ip.1 * 10 ^ fds.length + natOfDigits fds
          let e : Int := ex - fds.length
          let q : ℚ :=
            if 0 ≤ e then mkRat (scaled * 10 ^ e.toNat : Nat) 1
            else mkRat (scaled : Nat) (10 ^ (-e).toNat)
          some (q, rest')

/-- Parser mode: a whole value, the member list of an object, or the
element list of an array. A single fuel-indexed function (rather than a
mutual block) keeps the parser structurally recursive, so that concrete
runs reduce inside the kernel. -/
inductive PMode where
  | val
  | members
  | elems

/-- Parses one JSON production. In mode `val` it parses a value after
skipping leading whitespace; in mode `members` it parses the members of an
object positioned at the first key; in mode `elems` the elements of an
array positioned at the first element. `fuel` bounds the recursion depth;
callers pass enough fuel for any input of the given length, so running out
of fuel only ever coincides with malformed input. -/
def parseStep : Nat → PMode → List Char → Option (Json × List Char)
  | 0, _, _ => none
  | fuel + 1, .val, cs =>
    match dropJsonWs cs with
    | [] => none
    | c :: rest =>
      if c = lbrace then
        match dropJsonWs rest with
        | [] => none
        | c2 :: rest2 =>
          if c2 = rbrace then some (.obj [], rest2)
          else parseStep fuel .members (c2 :: rest2)
      else if c = '[' then
        match dropJsonWs rest with
        | ']' :: rest2 => some (.arr [], rest2)
        | cs2 => parseStep fuel .elems cs2
      else if c = '"' then
        (parseStringBody rest).map (fun p => (.str (String.mk p.1), p.2))
      else if c = '-' then
        (parseNumberAbs rest).map (fun p => (.num (-p.1), p.2))
      else if c = 't' then
        match rest with
        | 'r' :: 'u' :: 'e' :: r => some (.bool true, r)
        | _ => none
      else if c = 'f' then
        match rest with
        | 'a' :: 'l' :: 's' :: 'e' :: r => some (.bool false, r)
        | _ => none
      else if c = 'n' then
        match rest with
        | 'u' :: 'l' :: 'l' :: r => some (.null, r)
        | _ => none
      else
        (parseNumberAbs (c :: rest)).map (fun p => (.num p.1, p.2))
  | fuel + 1, .members, cs =>
    match cs with
    | '"' :: rest =>
      match parseStringBody rest with
      | none => none
      | some (key, afterKey) =>
        match dropJsonWs afterKey with
        | ':' :: afterColon =>
          match parseStep fuel .val afterColon with
          | none => none
          | some (v, afterVal) =>
            match dropJsonWs afterVal with
            | [] => none
            | sep :: r2 =>
              if sep = ',' then
                match parseStep fuel .members (dropJsonWs r2) with
                | some (.obj ms, r) => some (.obj ((String.mk key, v) :: ms), r)
                | _ => none
              else if sep = rbrace then some (.obj [(String.mk key, v)], r2)
              else none
        | _ => none
    | _ => none
  | fuel + 1, .elems, cs =>
    match parseStep fuel .val cs with
    | none => none
    | some (v, afterVal) =>
      match dropJsonWs afterVal with
      | ',' :: afterComma =>
        match parseStep fuel .elems afterComma with
        | some (.arr es, r) => some (.arr (v :: es), r)
        | _ => none
      | ']' :: r => some (.arr [v], r)
      | _ => none


/-- Model of `JSON.parse`: parses one JSON value and requires only
whitespace to remain, otherwise fails (JavaScript throws a `SyntaxError`,
modelled as `none`). -/
def jsonParse (s : String) : Option Json :=
  let cs := s.toList
  match parseStep (2 * cs.length + 2) .val cs with
  | some (v, rest) => if dropJsonWs rest = [] then some v else none
  | none => none

/-- JavaScript truthiness of a parsed JSON value (`if (parsed) ...`):
`null`, `false`, `0` and the empty string are falsy, every object and
array is truthy. -/
def jsTruthy : Json → Bool
  | .null => false
  | .bool b => b
  | .num q => if q = 0 then false else true
  | .str s => if s = "" then false else true
  | .arr _ => true
  | .obj _ => true

/-- Field access `obj.field` on a parsed JSON value: defined (non-`none`)
only on objects; the last member with the key wins, as in JavaScript
object construction. -/
def getField (j : Json) (k : String) : Option Json :=
  match j with
  | .obj members =>
    match members.reverse.find? (fun m => m.1 = k) with
    | some m => some m.2
    | none => none
  | _ => none

/-- Backtick character, written via its code point to keep backticks out
of char literals. -/
def backquote : Char := Char.ofNat 96

/-- JavaScript regex whitespace class `\s` as used by the extractor's
regexes: the ASCII whitespace characters plus no-break space and the BOM.
The exotic Unicode space classes JavaScript also includes cannot occur in
any claim under scrutiny and are omitted. -/
def isJsWs (c : Char) : Bool :=
  c = ' ' || c = '\t' || c = '\n' || c = '\r' || c = Char.ofNat 11 ||
    c = Char.ofNat 12 || c = Char.ofNat 0xa0 || c = Char.ofNat 0xfeff

/-- Drops leading `\s` whitespace. -/
def dropWs : List Char → List Char
  | [] => []
  | c :: cs => if isJsWs c then dropWs cs else c :: cs

/-- Model of `extractJsonObject` (analyze/index.ts lines 60-64, identical
in part_001 and part_002): the slice from the first left brace to the last
right brace; throws `"No JSON object found"` when either is missing or in
the wrong order. -/
def extractJsonObject (cs : List Char) : Except String (List Char) :=
  match cs.findIdx? (fun c => c = lbrace),
      (cs.reverse.findIdx? (fun c => c = rbrace)).map (fun k => cs.length - 1 - k) with
  | some s, some e =>
    if e < s then .error "No JSON object found"
    else .ok ((cs.drop s).take (e - s + 1))
  | _, _ => .error "No JSON object found"

/-- Three backticks at the head of the input. -/
def startsTriple : List Char → Bool
  | a :: b :: c :: _ => a = backquote ∧ b = backquote ∧ c = backquote
  | _ => false

/-- The lazy group of the fenced-block regex with its required
continuation: scans for the first right brace whose remainder is
whitespace followed by a closing fence, consuming every earlier character
(right braces included) into the capture, exactly as lazy backtracking
does. Returns the capture body up to and including that right brace. -/
def lazyClose (acc : List Char) : List Char → Option (List Char)
  | [] => none
  | c :: rest =>
    if c = rbrace ∧ startsTriple (dropWs rest) then some (acc ++ [c])
    else lazyClose (acc ++ [c]) rest

/-- After the optional `json` tag and greedy whitespace, requires a left
brace and runs the lazy search for the closing brace. -/
def braceBodyAt (cs : List Char) : Option (List Char) :=
  match dropWs cs with
  | c :: rest =>
    if c = lbrace then (lazyClose [] rest).map (fun body => lbrace :: body)
    else none
  | [] => none

/-- The regex tail after an opening triple backtick: the optional `json`
tag prefers to consume a literal `json` and backtracks to not consuming
it, then the brace body via `braceBodyAt`. -/
def fencedTail (cs : List Char) : Option (List Char) :=
  match cs with
  | 'j' :: 's' :: 'o' :: 'n' :: rest =>
    match braceBodyAt rest with
    | some cap => some cap
    | none => braceBodyAt cs
  | _ => braceBodyAt cs

/-- Model of extraction method 1, the leftmost match of the fenced-block
regex (triple backtick, optional `json` tag, whitespace, lazily matched
brace body, whitespace, closing triple backtick): tries a full match at
every position in order, as the regex engine does, and returns the capture
group. -/
def findFenced : List Char → Option (List Char)
  | [] => none
  | c :: cs =>
    let here : Option (List Char) :=
      match cs with
      | b :: d :: rest =>
        if c = backquote ∧ b = backquote ∧ d = backquote then fencedTail rest
        else none
      | _ => none
    match here with
    | some cap => some cap
    | none => findFenced cs

/-- Model of extraction method 2, the greedy brace regex: its leftmost
match runs from the first left brace to the last right brace; there is no
match when no right brace follows the first left brace. -/
def braceSpan (cs : List Char) : Option (List Char) :=
  let fromBrace := cs.dropWhile (fun c => c ≠ lbrace)
  let upTo := (fromBrace.reverse.dropWhile (fun c => c ≠ rbrace)).reverse
  if upTo.isEmpty then none else some upTo

/-- Trim as JavaScript `.trim()`: removes leading and trailing whitespace
(core `String.trim` does the same but does not reduce in the kernel, so a
structural list version is used). -/
def trimChars (cs : List Char) : List Char :=
  (dropWs (dropWs cs).reverse).reverse

/-- Splits on newline characters exactly as JavaScript `split` with a
newline separator: an empty input gives one empty line, a trailing newline
a trailing empty line. -/
def splitLines : List Char → List (List Char)
  | [] => [[]]
  | c :: cs =>
    match splitLines cs with
    | [] => [[]]
    | line :: rest =>
      if c = '\n' then [] :: line :: rest
      else (c :: line) :: rest

/-- Model of extraction method 4: split on newlines, drop every line
before the first line whose trimmed form starts with a left brace (for the
one-character pattern, `startsWith` is a head test), rejoin with
newlines. -/
def linesFromBrace (text : String) : Option String :=
  let lines := splitLines text.toList
  match lines.findIdx? (fun line => (trimChars line).head? = some lbrace) with
  | some i => some (String.mk (List.intercalate ['\n'] (lines.drop i)))
  | none => none

/-- Is the next non-whitespace character a closing brace or bracket? Used
by the trailing-comma strip; returns it with the rest of the input. -/
def closeAfterWs (cs : List Char) : Option (Char × List Char) :=
  match dropWs cs with
  | b :: rest => if b = rbrace ∨ b = ']' then some (b, rest) else none
  | [] => none

/-- Model of the global trailing-comma replace: scanning left to right, a
comma whose next non-whitespace character is a closing brace or bracket is
deleted together with that whitespace, and scanning resumes after the
bracket, as a global regex replace does. The fuel argument makes the
recursion structural; each step consumes at least one character, so
`length + 1` fuel never runs out. -/
def stripCommasFuel : Nat → List Char → List Char
  | 0, cs => cs
  | _ + 1, [] => []
  | fuel + 1, c :: cs =>
    if c = ',' then
      match closeAfterWs cs with
      | some (b, rest) => b :: stripCommasFuel fuel rest
      | none => c :: stripCommasFuel fuel cs
    else c :: stripCommasFuel fuel cs

/-- Strips trailing commas before a closing brace/bracket. -/
def stripTrailingCommas (cs : List Char) : List Char :=
  stripCommasFuel (cs.length + 1) cs

/-- Normalises smart quotes: the curly double quotes U+201C/U+201D and the
curly single quotes U+2018/U+2019 are all replaced by a straight double
quote, as the two replace calls in the source do. -/
def normQuotes (cs : List Char) : List Char :=
  cs.map (fun c =>
    if c = Char.ofNat 0x201c ∨ c = Char.ofNat 0x201d ∨ c = Char.ofNat 0x2018 ∨
        c = Char.ofNat 0x2019 then '"'
    else c)

/-- Candidate cleaning used by `parseModelJson` (analyze/index.ts lines
90-94): strip trailing commas, normalise smart quotes, trim. -/
def cleanCandidate (s : String) : String :=
  String.mk (trimChars (normQuotes (stripTrailingCommas s.toList)))

/-- One iteration of the extraction loop body: clean the candidate, then
`JSON.parse` inside a try block; a JavaScript-falsy parse result does not
leave the loop. -/
def parseTry (s : String) : Option Json :=
  match jsonParse (cleanCandidate s) with
  | some v => if jsTruthy v then some v else none
  | none => none

/-- The four candidate producers tried in order by `parseModelJson`
(analyze/index.ts lines 68-84): fenced block, greedy brace span,
`extractJsonObject` (whose throw is caught, hence `toOption`), and
lines-from-first-brace. -/
def methodResults (text : String) : List (Option String) :=
  [(findFenced text.toList).map String.mk,
    (braceSpan text.toList).map String.mk,
    (extractJsonObject text.toList).toOption.map String.mk,
    linesFromBrace text]

/-- Runs the extraction loop: skips absent candidates and failed or falsy
parses, returns the first successful truthy parse. -/
def firstParsed : List (Option String) → Option Json
  | [] => none
  | none :: rest => firstParsed rest
  | some c :: rest =>
    match parseTry c with
    | some v => some v
    | none => firstParsed rest

/-- Model of `parseModelJson` (analyze/index.ts lines 66-102, identical in
part_001): tries the four extraction methods in order and returns the
first candidate that cleans and parses to a truthy value, `null` (`none`)
otherwise. -/
def parseModelJson (text : String) : Option Json :=
  firstParsed (methodResults text)

/-- Candidate cleaning used by the Gemini-variant `parseModelJson`
(part_002): the same three replaces but no trim. -/
def cleanCandidateG (s : String) : String :=
  String.mk (normQuotes (stripTrailingCommas s.toList))

/-- Model of the Gemini-variant `parseModelJson` (part_002 lines 35-55):
greedy brace span first; if its cleaned form fails to parse, fall back to
`extractJsonObject` over the whole text; both failures yield `null`. -/
def parseModelJsonG (text : String) : Option Json :=
  match braceSpan text.toList with
  | none => none
  | some m =>
    match jsonParse (cleanCandidateG (String.mk m)) with
    | some v => some v
    | none =>
      match extractJsonObject text.toList with
      | .error _ => none
      | .ok fb => jsonParse (cleanCandidateG (String.mk fb))

example : parseModelJson "Here you go:\n```json\n\x7b\"a\":1,\x7d\n```" =
    some (.obj [("a", .num 1)]) := by rfl

example : parseModelJsonG "x \x7b\"a\":1,\x7d y" = some (.obj [("a", .num 1)]) := by rfl

example : parseModelJson "no json here" = none := by rfl

example : jsonParse "\x7b\"a\":1,\"b\":[true,null]\x7d" =
    some (.obj [("a", .num 1), ("b", .arr [.bool true, .null])]) := by rfl

example : jsonParse "\x7b\"a\":1,\x7d" = none := by rfl

example : jsonParse " 01 " = none := by rfl

/-- Model of `priorityScore` (analyze/index.ts lines 275-279, identical in
part_001): impact high/medium/other contributes 3/2/1, confidence
high/medium/other contributes 0.3/0.2/0.1. The database columns are
nullable, so the arguments are `Option String`; `none` falls through to
the last branch exactly as a JavaScript `undefined`/`null` does under
strict equality. -/
def priorityScore (impact confidence : Option String) : ℚ :=
  (if impact = some "high" then 3 else if impact = some "medium" then 2 else 1) +
    (if confidence = some "high" then 0.3 else if confidence = some "medium" then 0.2 else 0.1)

/-- One row of the `design_recommendations` table, with the columns
written by `insertAnalysis`. -/
structure RecRow where
  analysis_id : String
  rec_key : String
  category : Option String
  title : Option String
  impact : Option String
  confidence : Option String
  why_it_matters : Option String
  what_to_change : List String
  acceptance_criteria : List String
  analytics : List String
  anchors : List String
  votes : Int
  is_active : Bool
deriving Repr, DecidableEq

/-- Priority score of a row, as applied inside the sort comparator. -/
def recScore (r : RecRow) : ℚ := priorityScore r.impact r.confidence

/-- Inserts an element into a descending-sorted list in front of the first
element whose key is not larger. Equal keys therefore end up after the
inserted element, which entered the original list earlier — this is the
stability discipline of `Array.prototype.sort`. -/
def insertDesc {α K : Type} [LinearOrder K] (key : α → K) (a : α) : List α → List α
  | [] => [a]
  | x :: xs => if key a < key x then x :: insertDesc key a xs else a :: x :: xs

/-- Stable descending sort by a key. JavaScript `Array.prototype.sort` is
specified to be stable, and the comparator in the source returns the key
difference, so the source computes the unique permutation that is
descending on the key with ties in original order; this insertion sort
computes the same permutation. -/
def sortDesc {α K : Type} [LinearOrder K] (key : α → K) : List α → List α
  | [] => []
  | x :: xs => insertDesc key x (sortDesc key xs)

/-- Wire shape of one recommendation as rendered by the payload builders
(the `rec_key` column is exposed as `id`; `is_active` and `analysis_id`
are not exposed). -/
structure WireRec where
  id : String
  category : Option String
  title : Option String
  impact : Option String
  confidence : Option String
  why_it_matters : Option String
  what_to_change : List String
  acceptance_criteria : List String
  analytics : List String
  anchors : List String
  votes : Int
deriving Repr, DecidableEq

/-- Projection of a row to the wire shape. -/
def toWire (r : RecRow) : WireRec :=
  { id := r.rec_key
    category := r.category
    title := r.title
    impact := r.impact
    confidence := r.confidence
    why_it_matters := r.why_it_matters
    what_to_change := r.what_to_change
    acceptance_criteria := r.acceptance_criteria
    analytics := r.analytics
    anchors := r.anchors
    votes := r.votes }

/-- Model of `getAllActive` (analyze/index.ts lines 270-273): all rows of
the analysis with `is_active = true`, in table order. -/
def getAllActive (analysisId : String) (table : List RecRow) : List RecRow :=
  table.filter (fun r => r.analysis_id = analysisId && r.is_active)

/-- Response payload of the Claude handler. -/
structure Payload where
  analysis_id : String
  summary : String
  recommendations : List WireRec
  recommendations_all : List WireRec
deriving Repr, DecidableEq

/-- Ranked list as computed inside `getPayload` (analyze/index.ts lines
285-289): stable sort of the active rows, descending on `priorityScore`. -/
def rankedOf (analysisId : String) (table : List RecRow) : List RecRow :=
  sortDesc recScore (getAllActive analysisId table)

/-- Model of `getPayload` (analyze/index.ts lines 281-322, identical in
part_001): analysis summary (empty string when absent), top-3 prefix of
the ranked actives, and the full ranked list, both in wire shape. -/
def getPayload (analysisId : String) (summary : Option String) (table : List RecRow) :
    Payload :=
  let ranked := rankedOf analysisId table
  { analysis_id := analysisId
    summary := summary.getD ""
    recommendations := (ranked.take 3).map toWire
    recommendations_all := ranked.map toWire }

/-- Response payload of the Gemini handler (part_002): no top-3 view. -/
structure PayloadG where
  analysis_id : String
  summary : String
  recommendations : List WireRec
deriving Repr, DecidableEq

/-- Model of `getAnalysisPayload` (part_002 lines 207-233): the active
rows are fetched with an order-by-votes-descending clause; the database
ordering is modelled as the stable descending sort on the `votes`
column. -/
def getAnalysisPayloadG (analysisId : String) (summary : Option String)
    (table : List RecRow) : PayloadG :=
  { analysis_id := analysisId
    summary := summary.getD ""
    recommendations := (sortDesc (fun r => r.votes) (getAllActive analysisId table)).map toWire }

/-- One row of the append-only `design_interactions` audit table. -/
structure InteractionRow where
  analysis_id : String
  rec_key : String
  action : String
deriving Repr, DecidableEq

/-- Mutable store state: the `design_recommendations` table and the
`design_interactions` log. The `design_analyses` rows are never mutated by
the interaction handlers and are kept outside the state. -/
structure StoreState where
  recs : List RecRow
  interactions : List InteractionRow
deriving Repr, DecidableEq

/-- The `analysis_id`/`rec_key` equality filter pair used by both vote
branches. -/
def rowMatches (aid rid : String) (r : RecRow) : Bool :=
  r.analysis_id = aid && r.rec_key = rid

/-- Model of the upvote branch (analyze/index.ts lines 342-354; part_002
lines 253-263 implement the same read-increment-write): read the first
matching row's votes (0 when no row matches), PATCH every matching row's
votes to that value plus one, append the upvote interaction row. -/
def upvoteOp (aid rid : String) (st : StoreState) : StoreState :=
  let current : Int :=
    (((st.recs.filter (rowMatches aid rid)).head?).map (fun r => r.votes)).getD 0
  { recs := st.recs.map
      (fun r => if rowMatches aid rid r then { r with votes := current + 1 } else r)
    interactions := st.interactions ++ [⟨aid, rid, "upvote"⟩] }

/-- Model of the downvote branch of the Claude handler (analyze/index.ts
lines 355-365): PATCH every matching row's `is_active` to false, append
the downvote interaction row. -/
def downvoteOp (aid rid : String) (st : StoreState) : StoreState :=
  { recs := st.recs.map
      (fun r => if rowMatches aid rid r then { r with is_active := false } else r)
    interactions := st.interactions ++ [⟨aid, rid, "downvote"⟩] }

/-- One interaction event against the store. -/
inductive VoteOp where
  | up (aid rid : String)
  | down (aid rid : String)
deriving Repr, DecidableEq

/-- Applies one event. -/
def applyOp : VoteOp → StoreState → StoreState
  | .up aid rid, st => upvoteOp aid rid st
  | .down aid rid, st => downvoteOp aid rid st

/-- Applies a sequence of events in order. -/
def applyOps (ops : List VoteOp) (st : StoreState) : StoreState :=
  ops.foldl (fun s op => applyOp op s) st

/-- String content of a JSON value when it is a string. -/
def jsonStr? : Json → Option String
  | .str s => some s
  | _ => none

/-- String field of a parsed recommendation object; a non-string value
scores and displays exactly like an absent one in every consumer, so it is
mapped to `none`. -/
def jsonFieldStr (j : Json) (k : String) : Option String :=
  (getField j k).bind jsonStr?

/-- String-list field (`?? []` in the source); non-string members cannot
influence any claim and are dropped. -/
def jsonFieldStrList (j : Json) (k : String) : List String :=
  match getField j k with
  | some (.arr xs) => xs.filterMap jsonStr?
  | _ => []

/-- The `r.id || generated` fallback for `rec_key`: a non-empty string id
is used, anything else falls back to the supplied generated key (the
source generates `REC-` plus a random UUID slice; randomness is injected
as the `freshKey` argument). A truthy non-string id, which JavaScript
would coerce to text, is also mapped to the generated key; no claim
depends on that coercion. -/
def recKeyOf (freshKey : String) (r : Json) : String :=
  match getField r "id" with
  | some (.str s) => if s = "" then freshKey else s
  | _ => freshKey

/-- Row construction for one child recommendation, shared by
`insertAnalysis` of every variant and by the part_002 replacement insert
(all three map the parsed object with the same field defaults,
`votes = 0`, `is_active = true`). -/
def recRowOfJson (analysisId freshKey : String) (r : Json) : RecRow :=
  { analysis_id := analysisId
    rec_key := recKeyOf freshKey r
    category := jsonFieldStr r "category"
    title := jsonFieldStr r "title"
    impact := jsonFieldStr r "impact"
    confidence := jsonFieldStr r "confidence"
    why_it_matters := jsonFieldStr r "why_it_matters"
    what_to_change := jsonFieldStrList r "what_to_change"
    acceptance_criteria := jsonFieldStrList r "acceptance_criteria"
    analytics := jsonFieldStrList r "analytics"
    anchors := jsonFieldStrList r "anchors"
    votes := 0
    is_active := true }

/-- One row of `design_analyses` as written by `insertAnalysis` (the
always-null columns `flow_app`, `flow_name`, `command`, `punchline` are
omitted). -/
structure AnalysisRow where
  input_url : Option String
  screenshot_paths : List String
  summary : Option Json
  raw_model : Option Json
  status : String
deriving Repr

/-- Model of `insertAnalysis` (analyze/index.ts lines 222-268): one
analysis row with status `completed`, then one child row per entry of
`parsed.recommendations_all` with `votes = 0` and `is_active = true`;
`freshKeys i` supplies the generated key for the i-th child. -/
def insertAnalysis (parsed : Json) (url : Option String) (screenshotPaths : List String)
    (analysisId : String) (freshKeys : Nat → String) : AnalysisRow × List RecRow :=
  let analysisRow : AnalysisRow :=
    { input_url := url
      screenshot_paths := screenshotPaths
      summary := getField parsed "summary"
      raw_model := some parsed
      status := "completed" }
  let recsAll : List Json :=
    match getField parsed "recommendations_all" with
    | some (.arr xs) => xs
    | _ => []
  (analysisRow, recsAll.enum.map (fun p => recRowOfJson analysisId (freshKeys p.1) p.2))

/-- Model of the Gemini-variant `insertAnalysis` (part_002 lines 166-205):
identical but the children come from `parsed.recommendations`. -/
def insertAnalysisG (parsed : Json) (url : Option String) (screenshotPaths : List String)
    (analysisId : String) (freshKeys : Nat → String) : AnalysisRow × List RecRow :=
  let analysisRow : AnalysisRow :=
    { input_url := url
      screenshot_paths := screenshotPaths
      summary := getField parsed "summary"
      raw_model := some parsed
      status := "completed" }
  let recs : List Json :=
    match getField parsed "recommendations" with
    | some (.arr xs) => xs
    | _ => []
  (analysisRow, recs.enum.map (fun p => recRowOfJson analysisId (freshKeys p.1) p.2))

/-- Outcome of the initial-analysis tail of a handler: either the error
response, or the rows persisted by `insertAnalysis`. -/
inductive AnalyzeOutcome where
  | error (status : Nat) (msg : String)
  | persisted (analysis : AnalysisRow) (recs : List RecRow)
deriving Repr

/-- Model of the initial-analysis tail of the Claude handler
(analyze/index.ts lines 384-389, identical in part_001 lines 337-342):
`!parsed` (falsy) or `recommendations_all` not an array or its length not
exactly 7 answers the 500 error and performs no insert; otherwise
`insertAnalysis` runs. -/
def analyzeStep (parsed : Option Json) (url : Option String) (paths : List String)
    (analysisId : String) (freshKeys : Nat → String) : AnalyzeOutcome :=
  match parsed with
  | none => .error 500 "Model did not return valid recommendations_all[7]."
  | some p =>
    if jsTruthy p then
      match getField p "recommendations_all" with
      | some (.arr xs) =>
        if xs.length = 7 then
          let ins := insertAnalysis p url paths analysisId freshKeys
          .persisted ins.1 ins.2
        else .error 500 "Model did not return valid recommendations_all[7]."
      | _ => .error 500 "Model did not return valid recommendations_all[7]."
    else .error 500 "Model did not return valid recommendations_all[7]."

/-- Model of the initial-analysis tail of the Gemini handler (part_002
lines 315-321): the guard only requires `parsed.recommendations` to be an
array — there is no length check — and then `insertAnalysisG` runs. -/
def analyzeStepG (parsed : Option Json) (url : Option String) (paths : List String)
    (analysisId : String) (freshKeys : Nat → String) : AnalyzeOutcome :=
  match parsed with
  | none => .error 500 "Model did not return valid recommendations JSON."
  | some p =>
    if jsTruthy p then
      match getField p "recommendations" with
      | some (.arr _) =>
        let ins := insertAnalysisG p url paths analysisId freshKeys
        .persisted ins.1 ins.2
      | _ => .error 500 "Model did not return valid recommendations JSON."
    else .error 500 "Model did not return valid recommendations JSON."

/-- Body of a Gemini-handler response. -/
inductive RespBodyG where
  | err (msg : String)
  | payload (p : PayloadG)
deriving Repr, DecidableEq

/-- A Gemini-handler HTTP response. -/
structure RespG where
  status : Nat
  body : RespBodyG
deriving Repr, DecidableEq

/-- Model of the downvote branch of the Gemini handler (part_002 lines
264-298) together with its surrounding try/catch (lines 239 and 322-325).
The replacement model call `callGemini` is the external collaborator; its
outcome is the `gemini` argument (`.error` when every endpoint failed and
`callGemini` threw). The branch has no try/catch of its own, so on
`.error` the exception propagates to the outer catch, which answers 500
with the error message; the deactivation update has already been awaited,
but neither the replacement insert nor the downvote interaction row
happens. -/
def downvoteFlowG (aid rid : String) (st : StoreState) (gemini : Except String String)
    (freshKey : String) (summary : Option String) : StoreState × RespG :=
  let deact : RecRow → RecRow := fun r =>
    if rowMatches aid rid r then { r with is_active := false } else r
  let st1 : StoreState := { st with recs := st.recs.map deact }
  match gemini with
  | .error e => (st1, { status := 500, body := .err e })
  | .ok text =>
    let parsedReplace := parseModelJsonG text
    let newRec : Option Json :=
      match parsedReplace with
      | some p =>
        match getField p "recommendations" with
        | some (.arr (x :: _)) => if jsTruthy x then some x else none
        | _ => none
      | none => none
    let st2 : StoreState :=
      match newRec with
      | some x => { st1 with recs := st1.recs ++ [recRowOfJson aid freshKey x] }
      | none => st1
    let st3 : StoreState :=
      { st2 with interactions := st2.interactions ++ [⟨aid, rid, "downvote"⟩] }
    (st3, { status := 200, body := .payload (getAnalysisPayloadG aid summary st3.recs) })

/-- One row of the `scans` table (schema in the repository's SQL file):
status is `processing`/`completed`/`failed`, with optional error text. -/
structure ScanRow where
  id : String
  url : String
  status : String
  screenshot_paths : List String
  error : Option String
deriving Repr, DecidableEq

/-- Body of a scan-handler response. -/
inductive ScanBody where
  | err (msg : String)
  | okIds (id : String) (screenshotPath : Option String)
deriving Repr, DecidableEq

/-- A scan-handler HTTP response. -/
structure ScanResp where
  status : Nat
  body : ScanBody
deriving Repr, DecidableEq

/-- Model of the scan handler after request validation (scan/index.ts
lines 69-108): the scan row is inserted with status `processing`; the
screenshot capture (`takeScreenshot`) and the storage upload are external
collaborators whose outcomes are the `shot` and `upload` arguments,
carrying the stringified error text on failure. On either failure the
inner catch updates the row to `failed` with the error text and
re-throws, and the outer catch answers 500 with the `error` body; on
success the row becomes `completed` with the screenshot path recorded. -/
def scanFlow (url scanId : String) (scans : List ScanRow)
    (shot : Except String Unit) (upload : Except String Unit) :
    List ScanRow × ScanResp :=
  let inserted := scans ++ [⟨scanId, url, "processing", [], none⟩]
  let path := "scans/" ++ scanId ++ "/homepage.png"
  match shot with
  | .error e =>
    (inserted.map (fun r =>
        if r.id = scanId then { r with status := "failed", error := some e } else r),
      { status := 500, body := .err e })
  | .ok _ =>
    match upload with
    | .error e =>
      (inserted.map (fun r =>
          if r.id = scanId then { r with status := "failed", error := some e } else r),
        { status := 500, body := .err e })
    | .ok _ =>
      (inserted.map (fun r =>
          if r.id = scanId then
            { r with status := "completed", screenshot_paths := [path] }
          else r),
        { status := 200, body := .okIds scanId (some path) })


section SortLemmas

variable {α K : Type} [LinearOrder K] (key : α → K)

theorem insertDesc_perm (a : α) :
    ∀ l : List α, List.Perm (insertDesc key a l) (a :: l)
  | [] => List.Perm.refl _
  | x :: xs => by
    unfold insertDesc
    split
    · exact (((insertDesc_perm a xs).cons x).trans (List.Perm.swap a x xs))
    · exact List.Perm.refl _

theorem sortDesc_perm : ∀ l : List α, List.Perm (sortDesc key l) l
  | [] => List.Perm.refl _
  | x :: xs =>
    (insertDesc_perm key x (sortDesc key xs)).trans ((sortDesc_perm xs).cons x)

theorem mem_insertDesc {a y : α} {l : List α} :
    y ∈ insertDesc key a l ↔ y = a ∨ y ∈ l := by
  constructor
  · intro h
    have := (insertDesc_perm key a l).mem_iff.mp h
    simpa using this
  · intro h
    apply (insertDesc_perm key a l).mem_iff.mpr
    simpa using h

theorem insertDesc_pairwise (a : α) :
    ∀ l : List α, List.Pairwise (fun x y => key y ≤ key x) l →
      List.Pairwise (fun x y => key y ≤ key x) (insertDesc key a l)
  | [], _ => List.pairwise_singleton _ _
  | x :: xs, h => by
    unfold insertDesc
    rcases List.pairwise_cons.mp h with ⟨hx, hxs⟩
    split
    · rename_i hlt
      refine List.pairwise_cons.mpr ⟨?_, insertDesc_pairwise a xs hxs⟩
      intro y hy
      rcases (mem_insertDesc key).mp hy with rfl | hmem
      · exact le_of_lt hlt
      · exact hx y hmem
    · rename_i hge
      refine List.pairwise_cons.mpr ⟨?_, h⟩
      intro y hy
      rcases hy with _ | hmem
      · exact le_of_not_lt hge
      · exact le_trans (hx y (by assumption)) (le_of_not_lt hge)

theorem sortDesc_pairwise :
    ∀ l : List α, List.Pairwise (fun x y => key y ≤ key x) (sortDesc key l)
  | [] => List.Pairwise.nil
  | x :: xs => insertDesc_pairwise key x (sortDesc key xs) (sortDesc_pairwise xs)

theorem insertDesc_filter (a : α) (q : K) :
    ∀ l : List α,
      (insertDesc key a l).filter (fun x => decide (key x = q)) =
        if key a = q then a :: l.filter (fun x => decide (key x = q))
        else l.filter (fun x => decide (key x = q))
  | [] => by
    by_cases h : key a = q <;> simp [insertDesc, List.filter, h]
  | x :: xs => by
    unfold insertDesc
    split
    · rename_i hlt
      have ihs := insertDesc_filter a q xs
      by_cases haq : key a = q
      · have hx : ¬ key x = q := fun hxq => by
          rw [haq] at hlt
          rw [hxq] at hlt
          exact lt_irrefl q hlt
        simp [List.filter_cons, hx, haq, ihs]
      · by_cases hx : key x = q <;> simp [List.filter_cons, hx, haq, ihs]
    · rename_i hge
      by_cases haq : key a = q <;> by_cases hx : key x = q <;>
        simp [List.filter_cons, haq, hx]

theorem sortDesc_filter (q : K) :
    ∀ l : List α,
      (sortDesc key l).filter (fun x => decide (key x = q)) =
        l.filter (fun x => decide (key x = q))
  | [] => rfl
  | x :: xs => by
    unfold sortDesc
    rw [insertDesc_filter key x q (sortDesc key xs)]
    by_cases hx : key x = q <;> simp [List.filter_cons, hx, sortDesc_filter q xs]

theorem insertDesc_map (g : α → α) (hg : ∀ x, key (g x) = key x) (a : α) :
    ∀ l : List α,
      insertDesc key (g a) (l.map g) = (insertDesc key a l).map g
  | [] => rfl
  | x :: xs => by
    unfold insertDesc
    simp only [List.map_cons, hg]
    split <;> simp [List.map_cons, insertDesc_map g hg a xs]

theorem sortDesc_map (g : α → α) (hg : ∀ x, key (g x) = key x) :
    ∀ l : List α, sortDesc key (l.map g) = (sortDesc key l).map g
  | [] => rfl
  | x :: xs => by
    unfold sortDesc
    simp only [List.map_cons]
    rw [sortDesc_map g hg xs, insertDesc_map key g hg]

end SortLemmas

/-- Changing only the votes of a row leaves its score unchanged. -/
theorem recScore_votes (f : RecRow → Int) (r : RecRow) :
    recScore { r with votes := f r } = recScore r := rfl

/-- Changing only the votes of rows commutes with the active filter. -/
theorem getAllActive_votes (analysisId : String) (f : RecRow → Int)
    (table : List RecRow) :
    getAllActive analysisId (table.map (fun r => { r with votes := f r })) =
      (getAllActive analysisId table).map (fun r => { r with votes := f r }) := by
  unfold getAllActive
  rw [List.filter_map]
  rfl

/-- C3 (amended: the property holds of `getPayload`, the payload builder of
the Claude handler in analyze/index.ts and part_001; the Gemini variant's
`getAnalysisPayload` instead returns the active rows ordered by the votes
column, see the counterexample): for every table of recommendations, the
ranked list inside `getPayload` is a permutation of the active set, sorted
in descending order of `priorityScore` (weights high/medium/low = 3/2/1
and 0.3/0.2/0.1), stable — equal-score rows keep their original relative
order, stated as preservation of every equal-score fibre — with the
`recommendations` view being the first 3 of that order and
`recommendations_all` the whole of it, and the votes column has no effect
on the ordering. -/
theorem getPayload_ranking (analysisId : String) (summary : Option String)
    (table : List RecRow) :
    (getPayload analysisId summary table).recommendations_all =
        (rankedOf analysisId table).map toWire ∧
    (getPayload analysisId summary table).recommendations =
        ((rankedOf analysisId table).take 3).map toWire ∧
    List.Perm (rankedOf analysisId table) (getAllActive analysisId table) ∧
    List.Pairwise (fun x y => recScore y ≤ recScore x) (rankedOf analysisId table) ∧
    (∀ q : ℚ, (rankedOf analysisId table).filter (fun r => decide (recScore r = q)) =
        (getAllActive analysisId table).filter (fun r => decide (recScore r = q))) ∧
    (∀ f : RecRow → Int,
      rankedOf analysisId (table.map (fun r => { r with votes := f r })) =
        (rankedOf analysisId table).map (fun r => { r with votes := f r })) := by
  refine ⟨rfl, rfl, sortDesc_perm recScore _, sortDesc_pairwise recScore _, ?_, ?_⟩
  · intro q
    exact sortDesc_filter recScore q _
  · intro f
    unfold rankedOf
    rw [getAllActive_votes, sortDesc_map recScore _ (recScore_votes f)]

/-- Row used by the C3 counterexample: highest possible score, no votes. -/
def c3rowHigh : RecRow :=
  { analysis_id := "a1", rec_key := "REC-1", category := some "ui",
    title := some "t1", impact := some "high", confidence := some "high",
    why_it_matters := none, what_to_change := [], acceptance_criteria := [],
    analytics := [], anchors := [], votes := 0, is_active := true }

/-- Row used by the C3 counterexample: lowest possible score, five votes. -/
def c3rowLow : RecRow :=
  { analysis_id := "a1", rec_key := "REC-2", category := some "ui",
    title := some "t2", impact := some "low", confidence := some "low",
    why_it_matters := none, what_to_change := [], acceptance_criteria := [],
    analytics := [], anchors := [], votes := 5, is_active := true }

/-- C3 counterexample: the Gemini variant's payload builder
`getAnalysisPayload` (part_002 lines 207-233), named as a source of the
claim, orders by the votes column, so on two active rows where the
lower-scored one has more votes it lists the lower-scored one first —
contradicting both "orders them in descending order of score" and "the
votes field has no effect on the ordering". -/
theorem getAnalysisPayloadG_votes_counterexample :
    ((getAnalysisPayloadG "a1" none [c3rowHigh, c3rowLow]).recommendations.map
        (fun w => w.id) = ["REC-2", "REC-1"]) ∧
    recScore c3rowLow < recScore c3rowHigh ∧
    c3rowHigh.is_active = true ∧ c3rowLow.is_active = true := by
  refine ⟨by rfl, ?_, rfl, rfl⟩
  simp +decide only [recScore, priorityScore, c3rowHigh, c3rowLow]
  norm_num

/-- A `some` result of one loop iteration comes from a successful
`JSON.parse` of the cleaned candidate. -/
theorem parseTry_sound (c : String) (v : Json) (h : parseTry c = some v) :
    jsonParse (cleanCandidate c) = some v := by
  unfold parseTry at h
  cases hp : jsonParse (cleanCandidate c) with
  | none =>
    rw [hp] at h
    exact h
  | some w =>
    rw [hp] at h
    have h' : (if jsTruthy w = true then some w else none) = some v := h
    by_cases ht : jsTruthy w = true
    · rw [if_pos ht] at h'
      exact h'
    · rw [if_neg ht] at h'
      exact absurd h' (by simp)

/-- The extraction loop yields `none` or the parse of one of the listed
candidates. -/
theorem firstParsed_spec : ∀ l : List (Option String),
    firstParsed l = none ∨
      ∃ c v, some c ∈ l ∧ jsonParse (cleanCandidate c) = some v ∧
        firstParsed l = some v
  | [] => Or.inl rfl
  | none :: rest => by
    rcases firstParsed_spec rest with h | ⟨c, v, hm, hp, hr⟩
    · left
      simpa [firstParsed] using h
    · right
      exact ⟨c, v, List.mem_cons_of_mem _ hm, hp, by simpa [firstParsed] using hr⟩
  | some c :: rest => by
    cases hp : parseTry c with
    | some v =>
      right
      exact ⟨c, v, List.mem_cons_self _ _, parseTry_sound c v hp,
        by simp [firstParsed, hp]⟩
    | none =>
      rcases firstParsed_spec rest with h | ⟨c', v, hm, hp', hr⟩
      · left
        simp [firstParsed, hp, h]
      · right
        exact ⟨c', v, List.mem_cons_of_mem _ hm, hp', by simp [firstParsed, hp, hr]⟩

/-- C2: for every input string the extractor terminates (its embedding is
a total function) and either returns the explicit no-result `none` — the
function's `null` — or a value obtained by successfully JSON-parsing one
of the candidate substrings after cleaning (trailing-comma strip,
smart-quote normalisation, trim); it never lets an exception escape (every
throwing step is wrapped, modelled by `Option`/`Except`) and never returns
a value that did not parse. -/
theorem parseModelJson_total (text : String) :
    parseModelJson text = none ∨
      ∃ c v, some c ∈ methodResults text ∧
        jsonParse (cleanCandidate c) = some v ∧ parseModelJson text = some v :=
  firstParsed_spec (methodResults text)

/-- Parsed model output used by the C1 witness: `recommendations_all` with
exactly 7 entries. -/
def c1parsed7 : Json :=
  Json.obj [("summary", .str "ok"),
    ("recommendations_all", .arr [
      .obj [("id", .str "REC-1"), ("impact", .str "high"), ("confidence", .str "high")],
      .obj [("id", .str "REC-2"), ("impact", .str "high"), ("confidence", .str "medium")],
      .obj [("id", .str "REC-3"), ("impact", .str "medium"), ("confidence", .str "high")],
      .obj [("id", .str "REC-4"), ("impact", .str "medium"), ("confidence", .str "low")],
      .obj [("id", .str "REC-5"), ("impact", .str "low"), ("confidence", .str "medium")],
      .obj [("id", .str "REC-6"), ("impact", .str "low"), ("confidence", .str "low")],
      .obj [("id", .str "REC-7"), ("impact", .str "low"), ("confidence", .str "low")]])]

/-- Parsed model output with only 3 entries, used by the C1 witness for
the rejection branch. -/
def c1parsed3 : Json :=
  Json.obj [("summary", .str "ok"),
    ("recommendations_all", .arr [
      .obj [("id", .str "REC-1"), ("impact", .str "high"), ("confidence", .str "high")],
      .obj [("id", .str "REC-2"), ("impact", .str "low"), ("confidence", .str "low")],
      .obj [("id", .str "REC-3"), ("impact", .str "low"), ("confidence", .str "low")]])]

/-- C1 (amended: the exact-7 boundary guard belongs to the Claude analyze
handler — analyze/index.ts lines 384-389, duplicated in part_001 — while
the Gemini variant handler in part_002, also cited by the claim, checks
only that `parsed.recommendations` is an array and persists whatever count
it has, see the counterexample): in the Claude handler an Analysis row and
its child Recommendation rows are persisted only when the parsed result is
present and its `recommendations_all` list has exactly 7 entries (and then
exactly 7 child rows are written and the analysis is `completed`); a
missing parse result answers the 500 error response with no insert, and so
does a parse result whose `recommendations_all` array length differs
from 7. -/
theorem analyzeStep_exact7 (parsed : Option Json) (url : Option String)
    (paths : List String) (analysisId : String) (freshKeys : Nat → String) :
    (∀ a recs, analyzeStep parsed url paths analysisId freshKeys =
        AnalyzeOutcome.persisted a recs →
      ∃ p xs, parsed = some p ∧
        getField p "recommendations_all" = some (Json.arr xs) ∧
        xs.length = 7 ∧ recs.length = 7 ∧ a.status = "completed") ∧
    (parsed = none → analyzeStep parsed url paths analysisId freshKeys =
      AnalyzeOutcome.error 500 "Model did not return valid recommendations_all[7].") ∧
    (∀ p xs, parsed = some p →
      getField p "recommendations_all" = some (Json.arr xs) → xs.length ≠ 7 →
      analyzeStep parsed url paths analysisId freshKeys =
        AnalyzeOutcome.error 500 "Model did not return valid recommendations_all[7].") := by
  refine ⟨?_, ?_, ?_⟩
  · intro a recs h
    cases parsed with
    | none => simp [analyzeStep] at h
    | some p =>
      by_cases ht : jsTruthy p
      · cases hg : getField p "recommendations_all" with
        | none => simp [analyzeStep, ht, hg] at h
        | some j =>
          cases j with
          | arr xs =>
            by_cases h7 : xs.length = 7
            · refine ⟨p, xs, rfl, hg, h7, ?_, ?_⟩
              · simp only [analyzeStep, ht, hg, h7, if_true, if_pos] at h
                cases h with
                | refl =>
                  simp [insertAnalysis, hg, List.length_map, List.enum_length, h7]
              · simp only [analyzeStep, ht, hg, h7, if_true, if_pos] at h
                cases h with
                | refl => rfl
            · simp [analyzeStep, ht, hg, h7] at h
          | null => simp [analyzeStep, ht, hg] at h
          | bool b => simp [analyzeStep, ht, hg] at h
          | num q => simp [analyzeStep, ht, hg] at h
          | str s => simp [analyzeStep, ht, hg] at h
          | obj ms => simp [analyzeStep, ht, hg] at h
      · simp [analyzeStep, ht] at h
  · intro h
    subst h
    rfl
  · intro p xs hp hg h7
    subst hp
    by_cases ht : jsTruthy p
    · simp [analyzeStep, ht, hg, h7]
    · simp [analyzeStep, ht]

/-- C1 witness: the theorem applied to a concrete 7-entry parse (accepting
branch, hypotheses discharged by `rfl`) and to a concrete 3-entry parse
(rejecting branch). -/
theorem analyzeStep_exact7_witness :
    (∃ p xs, some c1parsed7 = some p ∧
        getField p "recommendations_all" = some (Json.arr xs) ∧
        xs.length = 7 ∧
        (insertAnalysis c1parsed7 none [] "a1" (fun _ => "K")).2.length = 7 ∧
        (insertAnalysis c1parsed7 none [] "a1" (fun _ => "K")).1.status = "completed") ∧
    analyzeStep (some c1parsed3) none [] "a1" (fun _ => "K") =
      AnalyzeOutcome.error 500 "Model did not return valid recommendations_all[7]." :=
  ⟨(analyzeStep_exact7 (some c1parsed7) none [] "a1" (fun _ => "K")).1 _ _ rfl,
    (analyzeStep_exact7 (some c1parsed3) none [] "a1" (fun _ => "K")).2.2
      c1parsed3
      [Json.obj [("id", .str "REC-1"), ("impact", .str "high"), ("confidence", .str "high")],
        Json.obj [("id", .str "REC-2"), ("impact", .str "low"), ("confidence", .str "low")],
        Json.obj [("id", .str "REC-3"), ("impact", .str "low"), ("confidence", .str "low")]]
      rfl rfl (by decide)⟩

/-- Parsed Gemini output with 3 recommendations, used by the C1
counterexample. -/
def c1gemini : Json :=
  Json.obj [("summary", .str "s"),
    ("recommendations", .arr [
      .obj [("id", .str "REC-1"), ("impact", .str "high"), ("confidence", .str "high")],
      .obj [("id", .str "REC-2"), ("impact", .str "medium"), ("confidence", .str "low")],
      .obj [("id", .str "REC-3"), ("impact", .str "low"), ("confidence", .str "low")]])]

/-- C1 counterexample: the Gemini analyze handler (part_002 lines
315-321), cited by the claim as one of its code places, persists an
Analysis with 3 child Recommendation rows although the parsed
recommendation list has 3 entries, not 7, and answers no error — so the
claim as stated (an Analysis is persisted only when the parsed list has
exactly 7 entries, otherwise a 500-class error and no insert) is false of
that handler at this concrete input. -/
theorem analyzeStepG_three_counterexample :
    analyzeStepG (some c1gemini) none [] "a1" (fun _ => "K") =
      AnalyzeOutcome.persisted
        (insertAnalysisG c1gemini none [] "a1" (fun _ => "K")).1
        (insertAnalysisG c1gemini none [] "a1" (fun _ => "K")).2 ∧
    (insertAnalysisG c1gemini none [] "a1" (fun _ => "K")).2.length = 3 :=
  ⟨rfl, rfl⟩

/-- Evolution relation between a row and its later version at the same
table position: both vote branches rewrite rows in place (a filtered PATCH
is a per-row update), never change the identity columns, and never set
`is_active` back to true. -/
def rowEvolves (r r' : RecRow) : Prop :=
  r'.analysis_id = r.analysis_id ∧ r'.rec_key = r.rec_key ∧
    (r.is_active = false → r'.is_active = false)

theorem rowEvolves_refl (r : RecRow) : rowEvolves r r := ⟨rfl, rfl, id⟩

theorem rowEvolves_trans {a b c : RecRow} (h1 : rowEvolves a b)
    (h2 : rowEvolves b c) : rowEvolves a c :=
  ⟨h2.1.trans h1.1, h2.2.1.trans h1.2.1, fun h => h2.2.2 (h1.2.2 h)⟩

theorem forall2_map (P : RecRow → RecRow → Prop) (f : RecRow → RecRow) :
    ∀ l : List RecRow, (∀ r ∈ l, P r (f r)) → List.Forall₂ P l (l.map f)
  | [], _ => List.Forall₂.nil
  | x :: xs, h =>
    List.Forall₂.cons (h x (List.mem_cons_self _ _))
      (forall2_map P f xs (fun r hr => h r (List.mem_cons_of_mem _ hr)))

theorem forall2_rowEvolves_refl (l : List RecRow) :
    List.Forall₂ rowEvolves l l := by
  induction l with
  | nil => exact List.Forall₂.nil
  | cons x xs ih => exact List.Forall₂.cons (rowEvolves_refl x) ih

theorem forall2_rowEvolves_trans {l1 l2 l3 : List RecRow}
    (h1 : List.Forall₂ rowEvolves l1 l2) (h2 : List.Forall₂ rowEvolves l2 l3) :
    List.Forall₂ rowEvolves l1 l3 := by
  induction h1 generalizing l3 with
  | nil => cases h2; exact List.Forall₂.nil
  | cons hab htl ih =>
    cases h2 with
    | cons hbc h2tl => exact List.Forall₂.cons (rowEvolves_trans hab hbc) (ih h2tl)

theorem applyOp_evolves (op : VoteOp) (st : StoreState) :
    List.Forall₂ rowEvolves st.recs (applyOp op st).recs := by
  cases op with
  | up aid rid =>
    apply forall2_map
    intro r _
    by_cases hm : rowMatches aid rid r = true <;> simp [hm, rowEvolves]
  | down aid rid =>
    apply forall2_map
    intro r _
    by_cases hm : rowMatches aid rid r = true <;> simp [hm, rowEvolves]

theorem applyOps_evolves (ops : List VoteOp) : ∀ st : StoreState,
    List.Forall₂ rowEvolves st.recs (applyOps ops st).recs := by
  induction ops with
  | nil => intro st; exact forall2_rowEvolves_refl st.recs
  | cons op ops ih =>
    intro st
    exact forall2_rowEvolves_trans (applyOp_evolves op st) (ih (applyOp op st))

/-- C4: over every sequence of upvote and downvote operations of the
Claude handler, each recommendation row evolves in place keeping its
identity, and once its `is_active` flag is false it is false in every
later state — neither branch ever writes `is_active := true`; moreover a
downvote whose matching rows are already inactive leaves the
recommendation table unchanged and only appends the downvote interaction
row. -/
theorem downvote_terminality (ops : List VoteOp) (st : StoreState) :
    List.Forall₂ rowEvolves st.recs (applyOps ops st).recs ∧
    (∀ aid rid,
      (∀ r ∈ st.recs, rowMatches aid rid r = true → r.is_active = false) →
      (downvoteOp aid rid st).recs = st.recs ∧
      (downvoteOp aid rid st).interactions =
        st.interactions ++ [⟨aid, rid, "downvote"⟩]) := by
  refine ⟨applyOps_evolves ops st, ?_⟩
  intro aid rid h
  refine ⟨?_, rfl⟩
  unfold downvoteOp
  simp only
  have : st.recs.map
      (fun r => if rowMatches aid rid r then { r with is_active := false } else r) =
      st.recs.map id := by
    apply List.map_congr_left
    intro r hr
    by_cases hm : rowMatches aid rid r = true
    · rw [if_pos hm]
      have hin := h r hr hm
      cases r
      simp_all
    · rw [if_neg hm]
      rfl
  rw [this, List.map_id]

/-- Row used by the C4 witness: already inactive. -/
def c4row : RecRow :=
  { analysis_id := "a1", rec_key := "REC-1", category := some "ux",
    title := some "t", impact := some "high", confidence := some "low",
    why_it_matters := none, what_to_change := [], acceptance_criteria := [],
    analytics := [], anchors := [], votes := 2, is_active := false }

/-- State used by the C4 witness: one already-inactive row. -/
def c4state : StoreState := { recs := [c4row], interactions := [] }

/-- C4 witness: the theorem applied to a concrete inactive row, an
upvote-then-downvote sequence, and the idempotence branch with its
hypothesis discharged by `decide`. -/
theorem downvote_terminality_witness :
    List.Forall₂ rowEvolves c4state.recs
      (applyOps [VoteOp.up "a1" "REC-1", VoteOp.down "a1" "REC-1"] c4state).recs ∧
    ((downvoteOp "a1" "REC-1" c4state).recs = c4state.recs ∧
      (downvoteOp "a1" "REC-1" c4state).interactions =
        c4state.interactions ++ [⟨"a1", "REC-1", "downvote"⟩]) :=
  ⟨(downvote_terminality [VoteOp.up "a1" "REC-1", VoteOp.down "a1" "REC-1"] c4state).1,
    (downvote_terminality [] c4state).2 "a1" "REC-1" (by decide)⟩

theorem filter_unique_head {aid rid : String} {l : List RecRow} {r : RecRow}
    (hmem : r ∈ l) (hm : rowMatches aid rid r = true)
    (huniq : (l.filter (rowMatches aid rid)).length ≤ 1) :
    (l.filter (rowMatches aid rid)).head? = some r := by
  have hr : r ∈ l.filter (rowMatches aid rid) := List.mem_filter.mpr ⟨hmem, hm⟩
  match hl : l.filter (rowMatches aid rid) with
  | [] => rw [hl] at hr; cases hr
  | [x] =>
    rw [hl] at hr
    have : r = x := by simpa using hr
    rw [this]
    rfl
  | x :: y :: t => rw [hl] at huniq; simp at huniq

/-- C5: an upvote on an `(analysisId, recKey)` pair — under the data-model
invariant that the key identifies at most one row of the analysis —
appends exactly one upvote interaction row, keeps the table length
unchanged, rewrites the matching row to the same row with its vote count
incremented by exactly 1 (every other column, in particular `is_active`,
unchanged), leaves every non-matching row untouched, and when no row
matches it changes no recommendation row at all (in particular it creates
none). -/
theorem upvote_frame (aid rid : String) (st : StoreState)
    (huniq : (st.recs.filter (rowMatches aid rid)).length ≤ 1) :
    (upvoteOp aid rid st).interactions =
      st.interactions ++ [⟨aid, rid, "upvote"⟩] ∧
    (upvoteOp aid rid st).recs.length = st.recs.length ∧
    (upvoteOp aid rid st).recs = st.recs.map
      (fun r => if rowMatches aid rid r then { r with votes := r.votes + 1 } else r) ∧
    ((∀ r ∈ st.recs, rowMatches aid rid r = false) →
      (upvoteOp aid rid st).recs = st.recs) := by
  have hmap : (upvoteOp aid rid st).recs = st.recs.map
      (fun r => if rowMatches aid rid r then { r with votes := r.votes + 1 } else r) := by
    unfold upvoteOp
    simp only
    apply List.map_congr_left
    intro r hr
    by_cases hm : rowMatches aid rid r = true
    · rw [if_pos hm, if_pos hm, filter_unique_head hr hm huniq]
      rfl
    · rw [if_neg hm, if_neg hm]
  refine ⟨rfl, by simp [upvoteOp], hmap, ?_⟩
  intro hnone
  rw [hmap]
  have : st.recs.map
      (fun r => if rowMatches aid rid r then { r with votes := r.votes + 1 } else r) =
      st.recs.map id := by
    apply List.map_congr_left
    intro r hr
    rw [if_neg (by rw [hnone r hr]; exact Bool.false_ne_true)]
    rfl
  rw [this, List.map_id]

/-- Row used by the C5 witness: active with two votes. -/
def c5row : RecRow :=
  { analysis_id := "a1", rec_key := "REC-1", category := some "ui",
    title := some "t", impact := some "medium", confidence := some "high",
    why_it_matters := none, what_to_change := [], acceptance_criteria := [],
    analytics := [], anchors := [], votes := 2, is_active := true }

/-- State used by the C5 witness: one active matching row with two
votes. -/
def c5state : StoreState := { recs := [c5row], interactions := [] }

/-- C5 witness: the theorem applied to a concrete single-row store, the
uniqueness hypothesis discharged by `decide`. -/
theorem upvote_frame_witness :
    (upvoteOp "a1" "REC-1" c5state).recs = c5state.recs.map
      (fun r => if rowMatches "a1" "REC-1" r then { r with votes := r.votes + 1 } else r) ∧
    (upvoteOp "a1" "REC-1" c5state).interactions =
      c5state.interactions ++ [⟨"a1", "REC-1", "upvote"⟩] :=
  ⟨(upvote_frame "a1" "REC-1" c5state (by decide)).2.2.1,
    (upvote_frame "a1" "REC-1" c5state (by decide)).1⟩

/-- C6 (amended: in the server-sourced replacement variant the
deactivation still commits before the model call, but a failing
replacement call is NOT swallowed — the branch has no try/catch of its
own, so the exception reaches the outer catch, the response is the 500
error body rather than the success payload, and the downvote interaction
row is never logged; only a successful model response without a usable
replacement is tolerated silently, the request then still answering
status 200 with a smaller slate): for every store, key and error, the
post-state of a failed-replacement downvote has every matching row
inactive, its interaction log unchanged, and the response equal to the
500 error body; while any successful model text answers status 200. -/
theorem downvoteFlowG_failure (aid rid : String) (st : StoreState) (e : String)
    (freshKey : String) (summary : Option String) :
    (∀ r ∈ (downvoteFlowG aid rid st (.error e) freshKey summary).1.recs,
        rowMatches aid rid r = true → r.is_active = false) ∧
    (downvoteFlowG aid rid st (.error e) freshKey summary).1.interactions =
      st.interactions ∧
    (downvoteFlowG aid rid st (.error e) freshKey summary).2 =
      { status := 500, body := .err e } ∧
    (∀ text, ((downvoteFlowG aid rid st (.ok text) freshKey summary).2).status = 200) := by
  refine ⟨?_, rfl, rfl, ?_⟩
  · intro r hr hm
    simp only [downvoteFlowG, List.mem_map] at hr
    rcases hr with ⟨r0, _, hr0⟩
    by_cases hm0 : rowMatches aid rid r0 = true
    · rw [if_pos hm0] at hr0
      rw [← hr0]
    · rw [if_neg hm0] at hr0
      rw [← hr0] at hm
      exact absurd hm hm0
  · intro text
    unfold downvoteFlowG
    simp only

/-- Row used by the C6 counterexample: active, matching the downvoted
key. -/
def c6row : RecRow :=
  { analysis_id := "a1", rec_key := "REC-1", category := some "ui",
    title := some "t", impact := some "high", confidence := some "high",
    why_it_matters := none, what_to_change := [], acceptance_criteria := [],
    analytics := [], anchors := [], votes := 0, is_active := true }

/-- State used by the C6 counterexample. -/
def c6state : StoreState := { recs := [c6row], interactions := [] }

/-- C6 counterexample: with one active matching row and a replacement
model call that fails (`callGemini` throws after every endpoint failed),
the Gemini downvote branch answers status 500 with the error body — the
downvote request itself fails, refuting "the failure is swallowed ... the
response is still the success payload" — even though the deactivation has
committed and no interaction row was logged. -/
theorem downvoteFlowG_counterexample :
    (downvoteFlowG "a1" "REC-1" c6state
        (.error "All Gemini endpoints failed.") "K" none).2 =
      { status := 500, body := RespBodyG.err "All Gemini endpoints failed." } ∧
    (downvoteFlowG "a1" "REC-1" c6state
        (.error "All Gemini endpoints failed.") "K" none).1.recs =
      [{ c6row with is_active := false }] ∧
    (downvoteFlowG "a1" "REC-1" c6state
        (.error "All Gemini endpoints failed.") "K" none).1.interactions = [] :=
  ⟨rfl, rfl, rfl⟩

/-- C6 witness: the amended theorem applied to a concrete store, error and
replacement text. -/
theorem downvoteFlowG_failure_witness :
    (downvoteFlowG "a1" "REC-1" c6state (.error "boom") "K" none).1.interactions =
      c6state.interactions ∧
    (downvoteFlowG "a1" "REC-1" c6state (.error "boom") "K" none).2 =
      { status := 500, body := .err "boom" } ∧
    ((downvoteFlowG "a1" "REC-1" c6state (.ok "no json") "K" none).2).status = 200 :=
  ⟨(downvoteFlowG_failure "a1" "REC-1" c6state "boom" "K" none).2.1,
    (downvoteFlowG_failure "a1" "REC-1" c6state "boom" "K" none).2.2.1,
    (downvoteFlowG_failure "a1" "REC-1" c6state "boom" "K" none).2.2.2 "no json"⟩

/-- C7: on the exact input "Here you go:" + newline + a json-tagged fenced
block containing an object with a trailing comma + closing fence, the
extractor returns the object with field a = 1 — the fenced candidate is
found, its trailing comma stripped, and the cleaned candidate parses. -/
theorem extractor_tolerance :
    parseModelJson "Here you go:\n```json\n\x7b\"a\":1,\x7d\n```" =
      some (Json.obj [("a", Json.num 1)]) := by rfl

/-- The failed scan row written by the inner catch of the scan handler. -/
def failedScanRow (scanId url e : String) : ScanRow :=
  { id := scanId, url := url, status := "failed",
    screenshot_paths := [], error := some e }

/-- C9: when screenshot capture or storage upload fails after the scan row
is inserted, the handler catches the failure, updates the row to status
failed with the error text recorded in its error column, re-throws, and
the HTTP boundary answers 500 with the error body; with a fresh scan id
the final table is exactly the old table plus that failed row (the row is
not retried or removed). -/
theorem scanFlow_failure (url scanId : String) (scans : List ScanRow)
    (shot upload : Except String Unit) (e : String)
    (hfail : shot = .error e ∨ (shot = .ok () ∧ upload = .error e))
    (hfresh : ∀ r ∈ scans, r.id ≠ scanId) :
    (scanFlow url scanId scans shot upload).1 =
      scans ++ [failedScanRow scanId url e] ∧
    (scanFlow url scanId scans shot upload).2 =
      { status := 500, body := .err e } := by
  have hmap : ∀ e' : String,
      (scans ++ [(⟨scanId, url, "processing", [], none⟩ : ScanRow)]).map
        (fun r => if r.id = scanId then { r with status := "failed", error := some e' } else r) =
      scans ++ [failedScanRow scanId url e'] := by
    intro e'
    rw [List.map_append]
    congr 1
    · conv_rhs => rw [← List.map_id scans]
      apply List.map_congr_left
      intro r hr
      rw [if_neg (hfresh r hr)]
      rfl
    · simp [failedScanRow]
  rcases hfail with h | ⟨h1, h2⟩
  · subst h
    exact ⟨hmap e, rfl⟩
  · subst h1
    subst h2
    exact ⟨hmap e, rfl⟩

/-- C9 witness: the theorem applied to an empty table and a failing
screenshot call. -/
theorem scanFlow_failure_witness :
    (scanFlow "https://example.com" "scan1" []
        (.error "Screenshot API error: 500") (.ok ())).1 =
      [failedScanRow "scan1" "https://example.com" "Screenshot API error: 500"] ∧
    (scanFlow "https://example.com" "scan1" []
        (.error "Screenshot API error: 500") (.ok ())).2 =
      { status := 500, body := .err "Screenshot API error: 500" } := by
  have h := scanFlow_failure "https://example.com" "scan1" []
    (.error "Screenshot API error: 500") (.ok ()) "Screenshot API error: 500"
    (Or.inl rfl) (by simp)
  simpa using h

/-- C10: the priority score is total over arbitrary — including missing or
unrecognised — impact and confidence strings: its value always lies in the
nine-element grid of reachable scores, and an impact other than high or
medium contributes exactly the low weight (the score equals the score at
impact low), likewise a confidence other than high or medium contributes
the low weight 0.1, so unknown enum values silently rank as low rather
than failing. -/
theorem priorityScore_total (impact confidence : Option String) :
    priorityScore impact confidence ∈
      ([1.1, 1.2, 1.3, 2.1, 2.2, 2.3, 3.1, 3.2, 3.3] : List ℚ) ∧
    (impact ≠ some "high" → impact ≠ some "medium" →
      priorityScore impact confidence = priorityScore (some "low") confidence) ∧
    (confidence ≠ some "high" → confidence ≠ some "medium" →
      priorityScore impact confidence = priorityScore impact (some "low")) := by
  refine ⟨?_, ?_, ?_⟩
  · unfold priorityScore
    by_cases hi1 : impact = some "high" <;> by_cases hi2 : impact = some "medium" <;>
      by_cases hc1 : confidence = some "high" <;>
      by_cases hc2 : confidence = some "medium" <;>
      simp [hi1, hi2, hc1, hc2, List.mem_cons] <;> norm_num
  · intro h1 h2
    unfold priorityScore
    simp +decide [h1, h2]
  · intro h1 h2
    unfold priorityScore
    simp +decide [h1, h2]

/-- C10 witness: the theorem applied to an unrecognised impact and a
missing confidence, the inequality hypotheses discharged by `decide`. -/
theorem priorityScore_total_witness :
    priorityScore (some "weird") none ∈
      ([1.1, 1.2, 1.3, 2.1, 2.2, 2.3, 3.1, 3.2, 3.3] : List ℚ) ∧
    priorityScore (some "weird") none = priorityScore (some "low") none ∧
    priorityScore (some "weird") none = priorityScore (some "weird") (some "low") :=
  ⟨(priorityScore_total (some "weird") none).1,
    (priorityScore_total (some "weird") none).2.1 (by decide) (by decide),
    (priorityScore_total (some "weird") none).2.2 (by decide) (by decide)⟩

/-- Hexadecimal digit character. -/
def hexDigit (n : Nat) : Char :=
  if n < 10 then Char.ofNat ('0'.toNat + n) else Char.ofNat ('a'.toNat + n - 10)

/-- Serialises one character of a JSON string as `JSON.stringify` does. -/
def escapeChar (c : Char) : String :=
  if c = '"' then "\\\""
  else if c = '\\' then "\\\\"
  else if c = '\n' then "\\n"
  else if c = '\r' then "\\r"
  else if c = '\t' then "\\t"
  else if c = Char.ofNat 8 then "\\b"
  else if c = Char.ofNat 12 then "\\f"
  else if c.toNat < 32 then
    String.mk ['\\', 'u', '0', '0', hexDigit (c.toNat / 16), hexDigit (c.toNat % 16)]
  else String.mk [c]

/-- Serialises a JSON string with its quotes. -/
def escapeJsonStr (s : String) : String :=
  "\"" ++ String.join (s.toList.map escapeChar) ++ "\""

/-- Rendering of a JSON number. An integer value prints as in JavaScript;
the textual form of a non-integer value differs from JavaScript's
shortest-double form, on which no claim depends (the determinism claim
needs only that equal values render equally). -/
def renderNum (q : ℚ) : String :=
  if q.den = 1 then toString q.num else toString q.num ++ "/" ++ toString q.den

/-- A run of spaces. -/
def spacesN (n : Nat) : String := String.mk (List.replicate n ' ')

/-- Model of `JSON.stringify(v, null, 2)`: pretty-printing with two-space
indentation, one line per array element or object member, as used for the
context block of the prompt. -/
def stringify (indent : Nat) : Json → String
  | .null => "null"
  | .bool b => if b then "true" else "false"
  | .num q => renderNum q
  | .str s => escapeJsonStr s
  | .arr xs =>
    if xs.isEmpty then "[]"
    else
      "[\n" ++ String.intercalate ",\n"
          (xs.attach.map (fun x => spacesN (indent + 2) ++ stringify (indent + 2) x.1)) ++
        "\n" ++ spacesN indent ++ "]"
  | .obj ms =>
    if ms.isEmpty then "\x7b\x7d"
    else
      "\x7b\n" ++ String.intercalate ",\n"
          (ms.attach.map (fun m => spacesN (indent + 2) ++ escapeJsonStr m.1.1 ++ ": " ++
            stringify (indent + 2) m.1.2)) ++
        "\n" ++ spacesN indent ++ "\x7d"
termination_by j => sizeOf j
decreasing_by
  · have := List.sizeOf_lt_of_mem x.2
    simp only [Json.arr.sizeOf_spec]
    omega
  · have := List.sizeOf_lt_of_mem m.2
    have h2 : sizeOf m.1.2 < sizeOf m.1 := by
      rcases m with ⟨⟨k, v⟩, hm⟩
      simp
    simp only [Json.obj.sizeOf_spec]
    omega

/-- The fixed instruction text of the Claude `buildPrompt`
(analyze/index.ts lines 173-219), line by line, reproduced verbatim
(braces and apostrophes written via escapes); the first entries yield the
blank separator after the serialised context and the last entry the
template's trailing newline. -/
def promptTailLines : List String :=
  ["",
   "",
   "You are analyzing a REAL website screenshot. Look at the actual visual elements, layout, colors, typography, and user interface in the provided image(s).",
   "",
   "CRITICAL: Base your recommendations on what you ACTUALLY SEE in the screenshot, not generic advice.",
   "",
   "MANDATORY: You MUST reference specific visual elements from the screenshot in your recommendations. If you cannot see the screenshot clearly, say so in your summary.",
   "",
   "Analyze the specific visual elements you observe:",
   "- What does the hero section look like?",
   "- How is the navigation structured?",
   "- What colors and typography are used?",
   "- Are there any obvious usability issues?",
   "- What specific UI elements need improvement?",
   "",
   "Return ONLY JSON with exactly:",
   "\x7b",
   "  \"summary\": \"max 25 words\",",
   "  \"recommendations_all\": [",
   "    \x7b \"id\":\"REC-1\",\"category\":\"ui|ux|product\",\"title\":\"max 8 words\",\"impact\":\"high|medium|low\",\"confidence\":\"high|medium|low\",\"why_it_matters\":\"max 36 words\",\"what_to_change\":[\"max 18 words\",\"max 18 words\"],\"acceptance_criteria\":[\"max 18 words\",\"max 18 words\"],\"analytics\":[\"max 9 words\"],\"anchors\":[] \x7d",
   "  ]",
   "\x7d",
   "",
   "CRITICAL: Make recommendations DETAILED and ACTIONABLE. No generic advice.",
   "",
   "For each recommendation:",
   "- title: Specific, concrete action (e.g., \"Add sticky CTA to product images\" not \"Improve buttons\")",
   "- why_it_matters: Specific business impact with metrics and detailed explanation (e.g., \"Increases conversion by 15-25% based on ecommerce benchmarks because users can purchase without scrolling back to find the button\")",
   "- what_to_change: Exact UI elements to modify with implementation details (e.g., [\"Add floating CTA button that appears after 50% scroll\", \"Implement size selector with visual feedback and hover states\"])",
   "- acceptance_criteria: Measurable outcomes with specific metrics (e.g., [\"CTA visible on scroll after 50% page height\", \"Size selection completed in under 2 clicks with visual confirmation\"])",
   "",
   "Examples of GOOD vs BAD:",
   "BAD: \"Improve mobile responsiveness\" (generic)",
   "GOOD: \"Fix overlapping text in mobile header that covers the logo\" (specific to what you see)",
   "",
   "BAD: \"Better color scheme\" (generic)  ",
   "GOOD: \"Increase contrast between white text and light blue background in hero section\" (specific to screenshot)",
   "",
   "BAD: \"Improve navigation\" (generic)",
   "GOOD: \"Make navigation menu items larger and add hover states as they\x27re too small to click easily\" (specific to screenshot)",
   "",
   "Hard constraints:",
   "- recommendations_all has EXACTLY 7 items.",
   "- Base EVERY recommendation on what you actually see in the provided screenshot(s).",
   "- Be SPECIFIC about visual elements, colors, layout issues you observe in the image.",
   "- Rank highest priority first. Priority = (impact high=3, medium=2, low=1) + (confidence high=0.3, medium=0.2, low=0.1). Sort DESC by score.",
   "- Be SPECIFIC and ACTIONABLE. Give concrete, implementable changes with exact UI elements, components, or features to modify.",
   "- JSON only. No code fences. No extra keys.",
   ""]

/-- Model of `buildPrompt` (analyze/index.ts lines 166-220): the
configured prefix, a blank line, the `Context:` header, the context
serialised with `JSON.stringify(ctx ?? \x7b\x7d, null, 2)`, and the fixed
instruction template. A pure function of its two arguments — the source
performs only serialisation and template concatenation. -/
def buildPrompt (promptPfx : String) (ctx : Option Json) : String :=
  promptPfx ++ "\n\nContext:\n" ++ stringify 0 (ctx.getD (.obj [])) ++
    String.intercalate "\n" promptTailLines

/-- C8: the prompt builder is deterministic and pure: it is a function of
the configured prefix string and the context value alone (no I/O and no
other state appears in its embedding, faithfully to the source, which only
serialises and concatenates), so two invocations with equal prefix and
equal context produce byte-identical output strings. -/
theorem buildPrompt_deterministic (p1 p2 : String) (c1 c2 : Option Json)
    (hp : p1 = p2) (hc : c1 = c2) :
    buildPrompt p1 c1 = buildPrompt p2 c2 := by rw [hp, hc]

/-- C8 witness: the theorem applied to a concrete prefix and context, the
equality hypotheses discharged by `rfl`. -/
theorem buildPrompt_deterministic_witness :
    buildPrompt "" (some (Json.obj [("industry", Json.str "ecommerce")])) =
      buildPrompt "" (some (Json.obj [("industry", Json.str "ecommerce")])) :=
  buildPrompt_deterministic "" "" (some (Json.obj [("industry", Json.str "ecommerce")]))
    (some (Json.obj [("industry", Json.str "ecommerce")])) rfl rfl

end PimpMySite
